import Mathlib

/-!
Verification of the kanpe conversation-capture pipeline against its
natural-language specification.

The definitions below are shallow embeddings of the repository's code:

* `addCaption`, `clearCaptions` — the zustand session store
  (`src/stores/session-store.ts`).
* the SQL schema constraints (`sessions`, `captions`, `ai_logs` tables)
  and the frontend `AiLogEntry` type (`src/lib/tauri.ts`).
* the Swift ScreenCaptureKit system-audio helper's per-buffer stream
  callback (`AudioCaptureOutput.stream`) including its output-buffer
  sizing formula.
* the AI-assist handlers of the expanded overlay
  (`handleActionClick` / `handleSendFreeform` in the overlay component).
* `buildSessionGroups` — session grouping by creation date
  (session-list screen).

Parts of the backend that live in the Rust `src-tauri` tree (the session
state machine behind `start_recording` and the `delete_session` command)
are not part of the embedded sources; those are modelled from the
specification and the SQL schema, and are marked as such in their doc
comments.
-/

/-- Caption status union from `src/lib/tauri.ts` (`"interim" | "final"`). -/
inductive CaptionStatus
  | interim
  | final
deriving DecidableEq, Repr

/-- CaptionEvent record from `src/lib/tauri.ts`:
`{ time: string; source: string; status: "interim" | "final"; text: string }`. -/
structure CaptionEvent where
  time : String
  source : String
  status : CaptionStatus
  text : String
deriving DecidableEq, Repr

/-- The guard computed by `addCaption` in `src/stores/session-store.ts`:
`captions.length > 0 && captions[captions.length - 1].status === "interim"`. -/
def hasInterimTail (captions : List CaptionEvent) : Bool :=
  match captions.getLast? with
  | some c => c.status = CaptionStatus.interim
  | none => false

/-- Embedding of `addCaption` from `src/stores/session-store.ts`: copy the
caption list; if the last entry is an interim caption overwrite it in place
(`captions[captions.length - 1] = caption`), otherwise push the new caption. -/
def addCaption (captions : List CaptionEvent) (c : CaptionEvent) : List CaptionEvent :=
  if hasInterimTail captions then captions.set (captions.length - 1) c
  else captions ++ [c]

/-- Embedding of `clearCaptions` from `src/stores/session-store.ts`:
`set({ captions: [] })`. -/
def clearCaptions (_captions : List CaptionEvent) : List CaptionEvent := []

/-- An operation on the live-caption list of the session store. -/
inductive SessionStoreOp
  | add (c : CaptionEvent)
  | clear

/-- Apply one session-store operation to the caption list. -/
def applyStoreOp (captions : List CaptionEvent) : SessionStoreOp → List CaptionEvent
  | SessionStoreOp.add c => addCaption captions c
  | SessionStoreOp.clear => clearCaptions captions

/-- Run a sequence of session-store operations starting from the empty
caption list (the store's initial state `captions: []`). -/
def runStoreOps (ops : List SessionStoreOp) : List CaptionEvent :=
  ops.foldl applyStoreOp []

/-- When the caption list ends in an interim entry, `addCaption` rewrites
that last entry: the result is the original list without its last element,
with the new caption in that last position. -/
theorem addCaption_of_interim_tail (l : List CaptionEvent) (c : CaptionEvent)
    (h : hasInterimTail l = true) : addCaption l c = l.dropLast ++ [c] := by
  have hne : l ≠ [] := by
    intro he
    rw [he] at h
    simp [hasInterimTail] at h
  rw [addCaption, if_pos h]
  have hlt : l.length - 1 < l.length := by
    have : 0 < l.length := List.length_pos.mpr hne
    omega
  rw [List.set_eq_take_append_cons_drop, if_pos hlt]
  have hdrop : l.drop (l.length - 1 + 1) = [] := by
    apply List.drop_eq_nil_of_le
    omega
  rw [hdrop, ← List.dropLast_eq_take]

/-- When the caption list does not end in an interim entry, `addCaption`
appends the new caption. -/
theorem addCaption_of_no_interim_tail (l : List CaptionEvent) (c : CaptionEvent)
    (h : hasInterimTail l = false) : addCaption l c = l ++ [c] := by
  rw [addCaption, if_neg]
  simp [h]

/-- All entries of the caption list except possibly the last one are final. -/
def interimOnlyAtTail (l : List CaptionEvent) : Prop :=
  ∀ c ∈ l.dropLast, c.status = CaptionStatus.final

/-- `addCaption` preserves the all-but-last-final invariant. -/
theorem interimOnlyAtTail_addCaption (l : List CaptionEvent) (c : CaptionEvent)
    (hl : interimOnlyAtTail l) : interimOnlyAtTail (addCaption l c) := by
  by_cases h : hasInterimTail l = true
  · rw [addCaption_of_interim_tail l c h]
    intro x hx
    rw [List.dropLast_concat] at hx
    exact hl x hx
  · rw [addCaption_of_no_interim_tail l c (by simpa using h)]
    intro x hx
    rw [List.dropLast_concat] at hx
    rcases List.eq_nil_or_concat l with he | ⟨l', a, hla⟩
    · rw [he] at hx
      cases hx
    · rw [List.concat_eq_append] at hla
      subst hla
      rcases List.mem_append.mp hx with hx' | hx'
      · exact hl x (by simpa using hx')
      · have hxa : x = a := by simpa using hx'
        have hlast : (l' ++ [a]).getLast? = some a := by
          simp [List.getLast?_append]
        unfold hasInterimTail at h
        rw [hlast] at h
        simp only [decide_eq_true_eq] at h
        rw [hxa]
        cases hs : a.status with
        | interim => exact absurd hs h
        | final => rfl

/-- Every state reachable by session-store operations from the empty list
satisfies the all-but-last-final invariant. -/
theorem interimOnlyAtTail_runStoreOps (ops : List SessionStoreOp) :
    interimOnlyAtTail (runStoreOps ops) := by
  suffices h : ∀ (l : List CaptionEvent), interimOnlyAtTail l →
      interimOnlyAtTail (ops.foldl applyStoreOp l) by
    exact h [] (by intro c hc; cases hc)
  induction ops with
  | nil => intro l hl; exact hl
  | cons op rest ih =>
    intro l hl
    cases op with
    | add c => exact ih _ (interimOnlyAtTail_addCaption l c hl)
    | clear => exact ih _ (by intro x hx; cases hx)

/-- A list whose entries are all final except possibly the last has at most
one interim entry. -/
theorem countP_interim_le_one (l : List CaptionEvent) (hl : interimOnlyAtTail l) :
    l.countP (fun c => c.status == CaptionStatus.interim) ≤ 1 := by
  rcases List.eq_nil_or_concat l with he | ⟨l', a, hla⟩
  · simp [he]
  · rw [List.concat_eq_append] at hla
    subst hla
    rw [List.countP_append]
    have hzero : l'.countP (fun c => c.status == CaptionStatus.interim) = 0 := by
      rw [List.countP_eq_zero]
      intro x hx
      have : x.status = CaptionStatus.final := hl x (by simpa using hx)
      simp [this]
    rw [hzero]
    have : List.countP (fun c => c.status == CaptionStatus.interim) [a] ≤ 1 := by
      rw [List.countP_cons, List.countP_nil]
      split <;> omega
    omega

/-- C10: starting from the empty live caption list, after any sequence of
`addCaption` and `clearCaptions` operations at most one entry of the list
has status interim, and every entry other than the last one is final (so
an interim entry, when present, is the last element). -/
theorem C10_interim_at_most_one_and_last (ops : List SessionStoreOp) :
    ((runStoreOps ops).dropLast.all (fun c => c.status == CaptionStatus.final)) = true ∧
    (runStoreOps ops).countP (fun c => c.status == CaptionStatus.interim) ≤ 1 := by
  have hinv := interimOnlyAtTail_runStoreOps ops
  constructor
  · rw [List.all_eq_true]
    intro c hc
    have := hinv c hc
    simp [this]
  · exact countP_interim_le_one _ hinv

/-- MIC interim caption used in the C1 counterexample. -/
def micPendingInterim : CaptionEvent :=
  ⟨"00:01", "MIC", CaptionStatus.interim, "Hello,"⟩

/-- SYS interim caption used in the C1 counterexample. -/
def sysIncomingInterim : CaptionEvent :=
  ⟨"00:02", "SYS", CaptionStatus.interim, "Hi"⟩

/-- C1 counterexample: with a MIC interim caption pending, a SYS interim
event overwrites it — `addCaption` replaces the interim tail regardless of
source, so the MIC pending interim is gone from the log, contradicting the
claim that events for one source never overwrite the pending interim of the
other source (the store keys no per-source slot). -/
theorem C1_counterexample :
    addCaption [micPendingInterim] sysIncomingInterim = [sysIncomingInterim] ∧
    micPendingInterim ∉ addCaption [micPendingInterim] sysIncomingInterim := by
  decide

/-- C1 (amended): a new event replaces the pending interim at the tail of
the caption list when one exists, regardless of which source produced
either event (so an event for one source can overwrite the other source's
pending interim); otherwise — in particular whenever the log ends in a
final caption — the event is appended as a new permanent entry; all
entries before the tail are left unchanged in place. -/
theorem C1_tail_interim_replacement (l : List CaptionEvent) (c : CaptionEvent) :
    (hasInterimTail l = true → addCaption l c = l.dropLast ++ [c]) ∧
    (hasInterimTail l = false → addCaption l c = l ++ [c]) ∧
    (addCaption l c).take l.dropLast.length = l.dropLast := by
  refine ⟨addCaption_of_interim_tail l c, addCaption_of_no_interim_tail l c, ?_⟩
  by_cases h : hasInterimTail l = true
  · rw [addCaption_of_interim_tail l c h]
    exact List.take_left' rfl
  · rw [addCaption_of_no_interim_tail l c (by simpa using h)]
    rw [List.length_dropLast, List.take_append_of_le_length (by omega), ← List.dropLast_eq_take]

/-- C1 witness: concrete instantiation of the amended tail-replacement
theorem — a SYS final event replaces the pending MIC interim caption. -/
theorem C1_witness :
    addCaption [micPendingInterim] sysIncomingInterim =
      [micPendingInterim].dropLast ++ [sysIncomingInterim] :=
  (C1_tail_interim_replacement [micPendingInterim] sysIncomingInterim).1 (by decide)

/-- MIC interim caption of the C4 scenario. -/
def micInterimHello : CaptionEvent :=
  ⟨"00:01", "MIC", CaptionStatus.interim, "Hello,"⟩

/-- MIC final caption of the C4 scenario. -/
def micFinalHelloThere : CaptionEvent :=
  ⟨"00:02", "MIC", CaptionStatus.final, "Hello there."⟩

/-- SYS final caption of the C4 scenario. -/
def sysFinalHi : CaptionEvent :=
  ⟨"00:03", "SYS", CaptionStatus.final, "Hi!"⟩

/-- C4: starting from the empty caption log, MIC interim "Hello," then MIC
final "Hello there." then SYS final "Hi!" yields exactly
`[(MIC, final, "Hello there."), (SYS, final, "Hi!")]` in that order, with
no residual interim entry. -/
theorem C4_scenario_mic_sys :
    runStoreOps
      [SessionStoreOp.add micInterimHello,
       SessionStoreOp.add micFinalHelloThere,
       SessionStoreOp.add sysFinalHi] = [micFinalHelloThere, sysFinalHi] := by
  decide

/-- The CHECK constraint on `ai_logs.type` from the SQL schema:
`CHECK(type IN ('recap', 'next-speak', 'followup', 'questions'))`. -/
def aiLogsTypeAllowed (t : String) : Bool :=
  t = "recap" || t = "next-speak" || t = "followup" || t = "questions"

/-- The `AiLogEntry.type` union from `src/lib/tauri.ts`:
`"recap" | "next-speak" | "followup" | "questions" | "freeform"`. -/
def aiLogEntryTypeValues : List String :=
  ["recap", "next-speak", "followup", "questions", "freeform"]

/-- C5: the frontend `AiLogEntry` type (and spec §3) declare `freeform` a
persistable AI-log type, but the `ai_logs` table's CHECK constraint rejects
it, so an `ai_logs` row with `type = 'freeform'` can never be stored. -/
theorem C5_freeform_rejected_by_schema :
    "freeform" ∈ aiLogEntryTypeValues ∧ aiLogsTypeAllowed "freeform" = false := by
  decide

/-- Output-buffer sizing from `AudioCaptureOutput.stream` in the Swift
system-audio helper:
`let ratio = outputFormat.sampleRate / pcmBuffer.format.sampleRate` and
`let outputCapacity = AVAudioFrameCount(Double(pcmBuffer.frameLength) * ratio + 32)`,
modelled over the rationals; the `AVAudioFrameCount` conversion truncates
the nonnegative value toward zero, i.e. takes the floor. -/
def outputCapacity (frameLength : ℕ) (sourceRate targetRate : ℚ) : ℤ :=
  ⌊(frameLength : ℚ) * (targetRate / sourceRate) + 32⌋

/-- C8: for every input buffer with positive frame count and positive
source and target sample rates, the allocated output frame capacity is at
least `ceil(frameLength * targetRate / sourceRate)`, so rounding of the
conversion quotient never truncates converted output. -/
theorem C8_capacity_at_least_ceil (frameLength : ℕ) (sourceRate targetRate : ℚ)
    (hn : 0 < frameLength) (hs : 0 < sourceRate) (ht : 0 < targetRate) :
    ⌈(frameLength : ℚ) * targetRate / sourceRate⌉ ≤
      outputCapacity frameLength sourceRate targetRate := by
  rw [outputCapacity, mul_div_assoc]
  have h32 : ((frameLength : ℚ) * (targetRate / sourceRate) + 32) =
      ((frameLength : ℚ) * (targetRate / sourceRate) + ((32 : ℤ) : ℚ)) := by norm_num
  rw [h32, Int.floor_add_int]
  have hcf : ⌈(frameLength : ℚ) * (targetRate / sourceRate)⌉ ≤
      ⌊(frameLength : ℚ) * (targetRate / sourceRate)⌋ + 1 :=
    Int.ceil_le_floor_add_one _
  omega

/-- C8 witness: a 160-frame buffer at 48 kHz resampled to 16 kHz. -/
theorem C8_capacity_witness :
    0 < 160 ∧ (0 : ℚ) < 48000 ∧ (0 : ℚ) < 16000 ∧
    ⌈((160 : ℕ) : ℚ) * 16000 / 48000⌉ ≤ outputCapacity 160 48000 16000 :=
  ⟨by norm_num, by norm_num, by norm_num,
    C8_capacity_at_least_ceil 160 48000 16000 (by norm_num) (by norm_num) (by norm_num)⟩

/-- Audio format descriptor as used by the Swift helper (only the sample
rate participates in the embedded logic). -/
structure AudioFormat where
  sampleRate : ℚ
deriving DecidableEq, Repr

/-- Outcomes of the external calls made for one PCM buffer inside
`AudioCaptureOutput.stream`: the converted result of `AVAudioConverter`
(`convError` — `conversionError != nil`), the allocation guard for the
output `AVAudioPCMBuffer` (`allocFailed`), the converted frame length and
the optional `int16ChannelData` pointer. -/
structure PCMInput where
  frameLength : ℕ
  format : AudioFormat
  allocFailed : Bool
  convError : Bool
  convertedFrames : ℕ
  convertedData : Option (List ℤ)
deriving DecidableEq, Repr

/-- One `CMSampleBuffer` delivered to the stream callback: output type
check (`outputType == .audio`), validity check (`CMSampleBufferIsValid`),
and the result of `makePCMBuffer` (`none` models its failure). -/
structure SampleBuffer where
  isAudio : Bool
  isValid : Bool
  pcm : Option PCMInput
deriving DecidableEq, Repr

/-- Observable effect of one stream callback of the Swift helper. The
`captureInterrupted` constructor is the escalation signal named by the
spec's error taxonomy; it is part of the signal vocabulary so that its
absence from the code's behaviour can be stated. -/
inductive StreamSignal
  | pcmOut (data : List ℤ)
  | captureInterrupted
deriving DecidableEq, Repr

/-- Converter state cached across callbacks: `inputFormat`/`converter` are
created on the first buffer and kept afterwards. -/
structure ConvState where
  converterFormat : Option AudioFormat
deriving DecidableEq, Repr

/-- The converter-state update at the top of the callback: on the first
valid buffer the converter is created for that buffer's format; afterwards
the cached converter is kept. -/
def nextConvState (st : ConvState) (p : PCMInput) : ConvState :=
  match st.converterFormat with
  | none => { converterFormat := some p.format }
  | some f => { converterFormat := some f }

/-- Embedding of `AudioCaptureOutput.stream(_:didOutputSampleBuffer:of:)`
for one buffer: guard on audio type, validity and `makePCMBuffer`; create
the converter if needed; allocate the output buffer with capacity
`outputCapacity`; convert; on conversion error or empty or absent output
drop the buffer silently; otherwise write the converted PCM data to
stdout. -/
def streamCallback (targetRate : ℚ) (st : ConvState) (buf : SampleBuffer) :
    ConvState × Option StreamSignal :=
  if !buf.isAudio then (st, none)
  else if !buf.isValid then (st, none)
  else
    match buf.pcm with
    | none => (st, none)
    | some p =>
      let st' := nextConvState st p
      let _capacity := outputCapacity p.frameLength p.format.sampleRate targetRate
      if p.allocFailed then (st', none)
      else if p.convError then (st', none)
      else if p.convertedFrames = 0 then (st', none)
      else
        match p.convertedData with
        | none => (st', none)
        | some data => (st', some (StreamSignal.pcmOut data))

/-- Run the stream callback over a sequence of delivered buffers,
collecting the emitted signals. -/
def streamRun (targetRate : ℚ) (st : ConvState) : List SampleBuffer → List StreamSignal
  | [] => []
  | b :: rest =>
    match streamCallback targetRate st b with
    | (st', none) => streamRun targetRate st' rest
    | (st', some s) => s :: streamRun targetRate st' rest

/-- The signal emitted for one buffer is never `captureInterrupted`: the
callback either writes converted PCM data or drops the buffer. -/
theorem streamCallback_no_interrupt (targetRate : ℚ) (st : ConvState) (b : SampleBuffer) :
    (streamCallback targetRate st b).2 ≠ some StreamSignal.captureInterrupted := by
  rw [streamCallback]
  split
  · simp
  · split
    · simp
    · split
      · simp
      · split
        · simp
        · split
          · simp
          · split
            · simp
            · split
              · simp
              · simp

/-- A buffer that reaches conversion and fails is dropped silently: the
callback emits no signal and only performs the converter-state update. -/
theorem streamCallback_conv_failure (targetRate : ℚ) (st : ConvState)
    (b : SampleBuffer) (p : PCMInput) (ha : b.isAudio = true) (hv : b.isValid = true)
    (hp : b.pcm = some p) (hal : p.allocFailed = false) (hc : p.convError = true) :
    streamCallback targetRate st b = (nextConvState st p, none) := by
  rw [streamCallback, ha, hv, hp]
  simp [hal, hc]

/-- C7 counterexample: two consecutive conversion failures followed by a
good buffer produce only the good buffer's PCM output — no
`captureInterrupted` signal is escalated after the two consecutive
failures, contradicting the claimed escalation (the callback's failure
branch is a bare `return` and keeps no failure counter). -/
def convFailBuffer : SampleBuffer :=
  { isAudio := true, isValid := true,
    pcm := some { frameLength := 160, format := ⟨48000⟩, allocFailed := false,
                  convError := true, convertedFrames := 0, convertedData := none } }

/-- A buffer whose conversion succeeds, producing three samples. -/
def convGoodBuffer : SampleBuffer :=
  { isAudio := true, isValid := true,
    pcm := some { frameLength := 160, format := ⟨48000⟩, allocFailed := false,
                  convError := false, convertedFrames := 3,
                  convertedData := some [1, 2, 3] } }

theorem C7_counterexample :
    streamRun 16000 ⟨none⟩ [convFailBuffer, convFailBuffer, convGoodBuffer] =
      [StreamSignal.pcmOut [1, 2, 3]] ∧
    StreamSignal.captureInterrupted ∉
      streamRun 16000 ⟨none⟩ [convFailBuffer, convFailBuffer, convGoodBuffer] := by
  constructor
  · rfl
  · decide

/-- C7 (amended): a conversion failure for a buffer is non-fatal — the
buffer is dropped (no signal is emitted for it) and subsequent buffers
continue to be processed — but no `CaptureInterrupted` signal is ever
escalated, however many consecutive conversion failures occur: the
failure branch returns without recording anything. -/
theorem C7_conv_failure_drops_and_never_escalates (targetRate : ℚ) (st : ConvState)
    (b : SampleBuffer) (p : PCMInput) (rest : List SampleBuffer)
    (ha : b.isAudio = true) (hv : b.isValid = true) (hp : b.pcm = some p)
    (hal : p.allocFailed = false) (hc : p.convError = true) :
    streamRun targetRate st (b :: rest) = streamRun targetRate (nextConvState st p) rest ∧
    ∀ bufs : List SampleBuffer,
      ((streamRun targetRate st bufs).all
        (fun s => s != StreamSignal.captureInterrupted)) = true := by
  constructor
  · rw [streamRun, streamCallback_conv_failure targetRate st b p ha hv hp hal hc]
  · intro bufs
    clear ha hv hp hal hc
    rw [List.all_eq_true]
    induction bufs generalizing st with
    | nil => intro s hs; cases hs
    | cons b' rest' ih =>
      intro s hs
      rw [streamRun] at hs
      rcases hcall : streamCallback targetRate st b' with ⟨st', sig⟩
      rw [hcall] at hs
      cases sig with
      | none => exact ih st' s hs
      | some s' =>
        simp only [List.mem_cons] at hs
        rcases hs with hs | hs
        · subst hs
          have := streamCallback_no_interrupt targetRate st b'
          rw [hcall] at this
          cases s with
          | pcmOut d => simp
          | captureInterrupted => exact absurd rfl this
        · exact ih st' s hs

/-- C7 witness: the amended theorem applied to a concrete failing buffer —
it is dropped while the stream continues, and the subsequent good buffer's
data still comes through. -/
theorem C7_witness :
    streamRun 16000 ⟨none⟩ [convFailBuffer, convGoodBuffer] =
      streamRun 16000
        (nextConvState ⟨none⟩
          { frameLength := 160, format := ⟨48000⟩, allocFailed := false,
            convError := true, convertedFrames := 0, convertedData := none })
        [convGoodBuffer] ∧
    ((streamRun 16000 ⟨none⟩ [convFailBuffer, convFailBuffer]).all
      (fun s => s != StreamSignal.captureInterrupted)) = true := by
  have h := C7_conv_failure_drops_and_never_escalates 16000 ⟨none⟩ convFailBuffer
    { frameLength := 160, format := ⟨48000⟩, allocFailed := false,
      convError := true, convertedFrames := 0, convertedData := none }
    [convGoodBuffer] rfl rfl rfl rfl rfl
  exact ⟨h.1, h.2 [convFailBuffer, convFailBuffer]⟩

/-- Chat message of the assist pane (`LLMMessage` in the overlay
component): `role` is `"user"` or `"assistant"`. -/
structure LLMMessage where
  role : String
  content : String
deriving DecidableEq, Repr

/-- The four quick actions of the right pane (`RightPaneAction`). -/
inductive RightPaneAction
  | recap
  | assist
  | question
  | action
deriving DecidableEq, Repr

/-- `ACTION_CONFIG[action].label` from `getActionConfig`. -/
def actionLabel : RightPaneAction → String
  | RightPaneAction.recap => "Recap"
  | RightPaneAction.assist => "Assist"
  | RightPaneAction.question => "Question"
  | RightPaneAction.action => "Action"

/-- `ACTION_CONFIG[action].prompt` from `getActionConfig`. -/
def actionPrompt : RightPaneAction → String
  | RightPaneAction.recap => "Please summarize the conversation so far concisely."
  | RightPaneAction.assist => "Based on the conversation flow, suggest what I should say next."
  | RightPaneAction.question => "Suggest questions I should ask the other person based on the conversation."
  | RightPaneAction.action => "Organize the action items from this conversation."

/-- Model of JavaScript `String.prototype.trim` as used by
`handleSendFreeform` (`inputValue.trim()`): strip whitespace characters
from both ends of the string. -/
def jsTrim (s : String) : String :=
  String.mk (((s.data.dropWhile Char.isWhitespace).reverse.dropWhile
    Char.isWhitespace).reverse)

/-- Component state the two assist handlers read and write: the free-form
input value, the chat messages, the in-flight flag and the active quick
action. -/
structure AssistPaneState where
  inputValue : String
  messages : List LLMMessage
  isGenerating : Bool
  activeAction : Option RightPaneAction
deriving DecidableEq, Repr

/-- The assistant message pushed when no session id can be resolved. -/
def noSessionMessage : LLMMessage :=
  ⟨"assistant", "セッションが開始されていません。Start Kanpe を押してから再試行してください。"⟩

/-- The assistant message pushed when `sendAiQuery` throws, carrying the
error text. -/
def llmFailureMessage (m : String) : LLMMessage :=
  ⟨"assistant", "LLM呼び出しに失敗しました: " ++ m⟩

/-- Embedding of `resolveSessionId`: the store's `activeSessionId` if set,
otherwise the backend's `get_active_session_id` (its outcome supplied as an
oracle; a thrown backend error is caught and treated like null). -/
def resolveSessionId (storeActive : Option String)
    (backendActive : Except String (Option String)) : Option String :=
  match storeActive with
  | some sid => some sid
  | none =>
    match backendActive with
    | Except.ok (some hydrated) => some hydrated
    | Except.ok none => none
    | Except.error _ => none

/-- Embedding of `handleActionClick`: guard on `isGenerating`; set the
active action and push the user message; resolve the session id — on
failure push the no-session assistant message and return without calling
the backend; otherwise call `sendAiQuery` once (its outcome supplied as an
oracle) and push either the response or the failure text. The second
component counts the `sendAiQuery` invocations performed. -/
def handleActionClick (st : AssistPaneState) (a : RightPaneAction)
    (storeActive : Option String) (backendActive : Except String (Option String))
    (llm : Except String String) : AssistPaneState × ℕ :=
  if st.isGenerating then (st, 0)
  else
    let st1 := { st with activeAction := some a,
                         messages := st.messages ++ [LLMMessage.mk "user" (actionLabel a)] }
    match resolveSessionId storeActive backendActive with
    | none => ({ st1 with messages := st1.messages ++ [noSessionMessage] }, 0)
    | some _sid =>
      match llm with
      | Except.ok r =>
        ({ st1 with messages := st1.messages ++ [LLMMessage.mk "assistant" r],
                    isGenerating := false }, 1)
      | Except.error e =>
        ({ st1 with messages := st1.messages ++ [llmFailureMessage e],
                    isGenerating := false }, 1)

/-- Embedding of `handleSendFreeform`: guard on a blank (trimmed) input and
on `isGenerating`; push the user message, clear the input and the active
action; resolve the session id — on failure push the no-session assistant
message and return without calling the backend; otherwise call
`sendAiQuery` once and push either the response or the failure text. The
second component counts the `sendAiQuery` invocations performed. -/
def handleSendFreeform (st : AssistPaneState)
    (storeActive : Option String) (backendActive : Except String (Option String))
    (llm : Except String String) : AssistPaneState × ℕ :=
  if jsTrim st.inputValue = "" then (st, 0)
  else if st.isGenerating then (st, 0)
  else
    let st1 := { st with messages := st.messages ++ [LLMMessage.mk "user" st.inputValue],
                         inputValue := "", activeAction := none }
    match resolveSessionId storeActive backendActive with
    | none => ({ st1 with messages := st1.messages ++ [noSessionMessage] }, 0)
    | some _sid =>
      match llm with
      | Except.ok r =>
        ({ st1 with messages := st1.messages ++ [LLMMessage.mk "assistant" r],
                    isGenerating := false }, 1)
      | Except.error e =>
        ({ st1 with messages := st1.messages ++ [llmFailureMessage e],
                    isGenerating := false }, 1)

/-- C6: for every AI request (quick action or free-form, with a non-blank
query and no request in flight): when no session id can be resolved, the
handler reports the no-session error message and performs zero `sendAiQuery`
calls; when a session id resolves and the LLM call fails, the error is
reported to the user as error text and `sendAiQuery` is performed exactly
once — no automatic retry. -/
theorem C6_no_session_and_llm_error_handling (st : AssistPaneState)
    (a : RightPaneAction) (storeActive : Option String)
    (backendActive : Except String (Option String)) (llm : Except String String)
    (hgen : st.isGenerating = false) (hq : jsTrim st.inputValue ≠ "") :
    (resolveSessionId storeActive backendActive = none →
      (handleActionClick st a storeActive backendActive llm).2 = 0 ∧
      (handleActionClick st a storeActive backendActive llm).1.messages.getLast? =
        some noSessionMessage ∧
      (handleSendFreeform st storeActive backendActive llm).2 = 0 ∧
      (handleSendFreeform st storeActive backendActive llm).1.messages.getLast? =
        some noSessionMessage) ∧
    (∀ sid e, resolveSessionId storeActive backendActive = some sid →
      llm = Except.error e →
      (handleActionClick st a storeActive backendActive llm).2 = 1 ∧
      (handleActionClick st a storeActive backendActive llm).1.messages.getLast? =
        some (llmFailureMessage e) ∧
      (handleSendFreeform st storeActive backendActive llm).2 = 1 ∧
      (handleSendFreeform st storeActive backendActive llm).1.messages.getLast? =
        some (llmFailureMessage e)) := by
  constructor
  · intro hres
    rw [handleActionClick, handleSendFreeform, if_neg (by simp [hgen]),
      if_neg hq, if_neg (by simp [hgen]), hres]
    simp [List.getLast?_append]
  · intro sid e hres hllm
    rw [handleActionClick, handleSendFreeform, if_neg (by simp [hgen]),
      if_neg hq, if_neg (by simp [hgen]), hres, hllm]
    simp [List.getLast?_append]

/-- Idle assist-pane state with a non-blank query, used in the C6 witness. -/
def idlePaneHello : AssistPaneState :=
  { inputValue := "hello", messages := [], isGenerating := false, activeAction := none }

/-- C6 witness: concrete idle state with a non-blank query; a run where no
session resolves makes zero LLM calls and reports the no-session message,
and a run where the session resolves but the LLM errors makes exactly one
call and reports the error text. -/
theorem C6_witness :
    (handleActionClick idlePaneHello RightPaneAction.recap none
        (Except.ok none) (Except.error "rate limited")).2 = 0 ∧
    (handleSendFreeform idlePaneHello none (Except.ok none)
        (Except.error "rate limited")).1.messages.getLast? = some noSessionMessage ∧
    (handleActionClick idlePaneHello RightPaneAction.recap
        (some "s1") (Except.ok none) (Except.error "rate limited")).2 = 1 ∧
    (handleSendFreeform idlePaneHello (some "s1") (Except.ok none)
        (Except.error "rate limited")).1.messages.getLast? =
      some (llmFailureMessage "rate limited") := by
  have h1 := C6_no_session_and_llm_error_handling idlePaneHello
    RightPaneAction.recap none (Except.ok none) (Except.error "rate limited")
    rfl (by decide)
  have h2 := C6_no_session_and_llm_error_handling idlePaneHello
    RightPaneAction.recap (some "s1") (Except.ok none) (Except.error "rate limited")
    rfl (by decide)
  have ha := h1.1 rfl
  have hb := h2.2 "s1" "rate limited" rfl rfl
  exact ⟨ha.1, ha.2.2.2, hb.1, hb.2.2.2⟩

/-- Row of the `sessions` table from the SQL schema:
`sessions(id PK, title, duration, created_at, updated_at, is_active,
summary, participants, ai_assists)`. -/
structure SessionRow where
  id : String
  title : String
  duration : String
  created_at : String
  updated_at : String
  is_active : Bool
  summary : String
  participants : ℕ
  ai_assists : ℕ
deriving DecidableEq, Repr

/-- Row of the `captions` table from the SQL schema. -/
structure CaptionRow where
  id : ℕ
  session_id : String
  time : String
  source : String
  status : String
  text : String
  created_at : String
deriving DecidableEq, Repr

/-- Row of the `ai_logs` table from the SQL schema. -/
structure AiLogRow where
  id : ℕ
  session_id : String
  time : String
  type : String
  text : String
  created_at : String
deriving DecidableEq, Repr

/-- The three session-scoped tables of the SQLite database. -/
structure KanpeDb where
  sessions : List SessionRow
  captions : List CaptionRow
  ai_logs : List AiLogRow
deriving DecidableEq, Repr

/-- Error of the recording command surface (spec §6). -/
inductive RecordingCmdError
  | SessionAlreadyActive
deriving DecidableEq, Repr

/-- Modelled from the spec: the SessionStateMachine behind `start_recording`
lives in the Rust backend (`src-tauri/src`, not among the embedded
sources). Per spec §4.5 and §6, `start_recording()` fails with
`SessionAlreadyActive` when another session is active — leaving the rows
untouched — and otherwise creates a new session row with `is_active` set
(schema defaults for title and duration) and returns its id. -/
def start_recording (rows : List SessionRow) (newId now : String) :
    List SessionRow × Except RecordingCmdError String :=
  if rows.any (fun r => r.is_active) then
    (rows, Except.error RecordingCmdError.SessionAlreadyActive)
  else
    (rows ++ [{ id := newId, title := "Untitled session", duration := "0:00",
                created_at := now, updated_at := now, is_active := true,
                summary := "", participants := 0, ai_assists := 0 }],
     Except.ok newId)

/-- Modelled from the spec: `stop_recording` (spec §4.5) finalizes the
session's `updated_at` and marks `is_active = false`; stopping an already
stopped session is an idempotent no-op. -/
def stop_recording (rows : List SessionRow) (sid now : String) : List SessionRow :=
  rows.map (fun r =>
    if r.id == sid then { r with is_active := false, updated_at := now } else r)

/-- A mutation of the sessions table performed by the session state machine
(the spec's single-writer for the active-session state, §5). -/
inductive SessionMachineOp
  | start (newId now : String)
  | stop (sid now : String)

/-- Apply one state-machine operation to the sessions table. -/
def applyMachineOp (rows : List SessionRow) : SessionMachineOp → List SessionRow
  | SessionMachineOp.start newId now => (start_recording rows newId now).1
  | SessionMachineOp.stop sid now => stop_recording rows sid now

/-- Run a sequence of state-machine operations from the empty table. -/
def runMachineOps (ops : List SessionMachineOp) : List SessionRow :=
  ops.foldl applyMachineOp []

/-- Stopping never increases the number of active sessions. -/
theorem countP_active_stop_le (rows : List SessionRow) (sid now : String) :
    (stop_recording rows sid now).countP (fun r => r.is_active) ≤
      rows.countP (fun r => r.is_active) := by
  rw [stop_recording]
  induction rows with
  | nil => simp
  | cons r rest ih =>
    rw [List.map_cons, List.countP_cons, List.countP_cons]
    apply Nat.add_le_add ih
    by_cases h : r.id == sid
    · simp [h]
    · simp [h]

/-- `start_recording` preserves the at-most-one-active invariant. -/
theorem countP_active_start_le (rows : List SessionRow) (newId now : String)
    (h : rows.countP (fun r => r.is_active) ≤ 1) :
    ((start_recording rows newId now).1.countP (fun r => r.is_active)) ≤ 1 := by
  rw [start_recording]
  by_cases ha : rows.any (fun r => r.is_active)
  · rw [if_pos ha]
    exact h
  · rw [if_neg ha]
    simp only [List.countP_append]
    have hz : rows.countP (fun r => r.is_active) = 0 := by
      rw [List.countP_eq_zero]
      intro x hx
      have := List.any_eq_true.not.mp ha
      push_neg at this
      exact this x hx
    rw [hz]
    simp

/-- C2: every sessions table reachable by state-machine operations from the
empty table has at most one row with `is_active = true`; and calling
`start_recording` on a table with an active session fails with
`SessionAlreadyActive` leaving the table unchanged — no new row is
created. -/
theorem C2_at_most_one_active (ops : List SessionMachineOp) :
    (runMachineOps ops).countP (fun r => r.is_active) ≤ 1 ∧
    ∀ (rows : List SessionRow) (newId now : String),
      rows.any (fun r => r.is_active) = true →
      start_recording rows newId now =
        (rows, Except.error RecordingCmdError.SessionAlreadyActive) := by
  constructor
  · suffices h : ∀ (rows : List SessionRow),
        rows.countP (fun r => r.is_active) ≤ 1 →
        (ops.foldl applyMachineOp rows).countP (fun r => r.is_active) ≤ 1 by
      exact h [] (by simp)
    induction ops with
    | nil => intro rows h; exact h
    | cons op rest ih =>
      intro rows h
      cases op with
      | start newId now => exact ih _ (countP_active_start_le rows newId now h)
      | stop sid now => exact ih _ (le_trans (countP_active_stop_le rows sid now) h)
  · intro rows newId now h
    rw [start_recording, if_pos h]

/-- An active session row used by the C2 witness. -/
def activeSessionRow : SessionRow :=
  { id := "s1", title := "Untitled session", duration := "0:00",
    created_at := "2026-01-01T00:00:00Z", updated_at := "2026-01-01T00:00:00Z",
    is_active := true, summary := "", participants := 0, ai_assists := 0 }

/-- C2 witness: concrete run — after a start the table has one active row,
and a second `start_recording` against that table fails with
`SessionAlreadyActive` and leaves the rows unchanged. -/
theorem C2_witness :
    (runMachineOps [SessionMachineOp.start "s1" "t0"]).countP
      (fun r => r.is_active) ≤ 1 ∧
    start_recording [activeSessionRow] "s2" "t1" =
      ([activeSessionRow], Except.error RecordingCmdError.SessionAlreadyActive) := by
  have h := C2_at_most_one_active [SessionMachineOp.start "s1" "t0"]
  exact ⟨h.1, h.2 [activeSessionRow] "s2" "t1" (by decide)⟩

/-- Result of a persistence command (spec §7: persistence errors are
propagated to the caller). -/
inductive PersistResult
  | ok
  | storageFailed
deriving DecidableEq, Repr

/-- Modelled from the spec: the `delete_session` Tauri command lives in the
Rust backend (`src-tauri/src/commands`, not among the embedded sources).
Per spec §4.7 and the schema's `ON DELETE CASCADE` foreign keys on
`captions.session_id` and `ai_logs.session_id`, a successful run removes
the session row together with every captions row and every ai_logs row
referencing it, in one atomic statement (all-or-nothing); a storage
failure leaves the database unchanged. -/
def delete_session (db : KanpeDb) (sid : String) (ioOk : Bool) :
    KanpeDb × PersistResult :=
  if ioOk then
    ({ sessions := db.sessions.filter (fun r => r.id != sid),
       captions := db.captions.filter (fun r => r.session_id != sid),
       ai_logs := db.ai_logs.filter (fun r => r.session_id != sid) },
     PersistResult.ok)
  else (db, PersistResult.storageFailed)

/-- Referential integrity: every caption row and every AI-log row
references an existing session row. -/
def fkConsistent (db : KanpeDb) : Prop :=
  (∀ c ∈ db.captions, ∃ s ∈ db.sessions, s.id = c.session_id) ∧
  (∀ a ∈ db.ai_logs, ∃ s ∈ db.sessions, s.id = a.session_id)

/-- C3: a successful `delete_session` drops the caption and AI-log row
counts for the deleted session to zero (and removes the session row); and
the deletion is atomic — whatever the storage outcome, a referentially
consistent database stays consistent (no orphaned caption or AI-log rows),
with a failed run leaving the database unchanged. -/
theorem C3_delete_cascades_atomically (db : KanpeDb) (sid : String) :
    ((delete_session db sid true).1.captions.countP
        (fun c => c.session_id == sid) = 0 ∧
      (delete_session db sid true).1.ai_logs.countP
        (fun a => a.session_id == sid) = 0 ∧
      (delete_session db sid true).1.sessions.countP
        (fun s => s.id == sid) = 0) ∧
    (delete_session db sid false).1 = db ∧
    (∀ ioOk : Bool, fkConsistent db → fkConsistent (delete_session db sid ioOk).1) := by
  refine ⟨⟨?_, ?_, ?_⟩, ?_, ?_⟩
  · rw [delete_session, if_pos rfl]
    rw [List.countP_eq_zero]
    intro c hc
    have := List.of_mem_filter hc
    simpa using this
  · rw [delete_session, if_pos rfl]
    rw [List.countP_eq_zero]
    intro a ha
    have := List.of_mem_filter ha
    simpa using this
  · rw [delete_session, if_pos rfl]
    rw [List.countP_eq_zero]
    intro s hs
    have := List.of_mem_filter hs
    simpa using this
  · rw [delete_session]
    simp
  · intro ioOk hdb
    cases ioOk with
    | false =>
      rw [delete_session]
      simpa using hdb
    | true =>
      rw [delete_session, if_pos rfl]
      constructor
      · intro c hc
        have hcm := List.mem_of_mem_filter hc
        have hcs := List.of_mem_filter hc
        rcases hdb.1 c hcm with ⟨s, hsm, hsid⟩
        refine ⟨s, List.mem_filter.mpr ⟨hsm, ?_⟩, hsid⟩
        rw [hsid]
        exact hcs
      · intro a ha
        have ham := List.mem_of_mem_filter ha
        have has := List.of_mem_filter ha
        rcases hdb.2 a ham with ⟨s, hsm, hsid⟩
        refine ⟨s, List.mem_filter.mpr ⟨hsm, ?_⟩, hsid⟩
        rw [hsid]
        exact has

/-- A one-session database with one caption and one AI log, used by the C3
witness. -/
def sampleDb : KanpeDb :=
  { sessions := [{ id := "s1", title := "Untitled session", duration := "0:00",
                   created_at := "2026-01-01T00:00:00Z",
                   updated_at := "2026-01-01T00:00:00Z", is_active := false,
                   summary := "", participants := 0, ai_assists := 0 }],
    captions := [{ id := 1, session_id := "s1", time := "00:01", source := "MIC",
                   status := "final", text := "Hello there.",
                   created_at := "2026-01-01T00:00:01Z" }],
    ai_logs := [{ id := 1, session_id := "s1", time := "00:02", type := "recap",
                  text := "Recap text", created_at := "2026-01-01T00:00:02Z" }] }

/-- C3 witness: deleting session `s1` from the sample database leaves zero
caption and AI-log rows for it, and consistency is preserved under both
storage outcomes. -/
theorem C3_witness :
    (delete_session sampleDb "s1" true).1.captions.countP
      (fun c => c.session_id == "s1") = 0 ∧
    fkConsistent (delete_session sampleDb "s1" false).1 := by
  have h := C3_delete_cascades_atomically sampleDb "s1"
  refine ⟨h.1.1, h.2.2 false ⟨?_, ?_⟩⟩
  · intro c hc
    refine ⟨sampleDb.sessions.head (by decide), by decide, ?_⟩
    have : c ∈ sampleDb.captions := hc
    simp only [sampleDb] at this
    rw [List.mem_singleton] at this
    rw [this]
    decide
  · intro a ha
    refine ⟨sampleDb.sessions.head (by decide), by decide, ?_⟩
    have : a ∈ sampleDb.ai_logs := ha
    simp only [sampleDb] at this
    rw [List.mem_singleton] at this
    rw [this]
    decide

/-- Session record from `src/lib/tauri.ts` (`interface Session`) as
consumed by the session-list screen. -/
structure Session where
  id : String
  title : String
  duration : String
  time : String
  created_at : String
  is_active : Bool
deriving DecidableEq, Repr

/-- The sort comparator of `buildSessionGroups` rendered as a total boolean
preorder: `sessionBefore parse a b` holds iff the comparator does not force
`b` strictly before `a`. Sessions with unparseable `created_at` sort last
(comparator returns 1 or -1), otherwise order is descending by parsed time
(`bTime - aTime`). `parse` abstracts JavaScript date parsing
(`Date.parse(x.created_at || "")`); `none` models `NaN`. ES2019
`Array.prototype.sort` is stable, so the sort below is `List.mergeSort` by
this preorder. -/
def sessionBefore (parse : String → Option ℤ) (a b : Session) : Bool :=
  match parse a.created_at, parse b.created_at with
  | none, none => true
  | none, some _ => false
  | some _, none => true
  | some ta, some tb => tb ≤ ta

/-- The grouping key of a session in `buildSessionGroups`: `"unknown"` when
`new Date(session.created_at)` is invalid (`Number.isNaN(created.getTime())`,
i.e. `parse` fails), otherwise `toDateKey(created)`. `dateKey` abstracts
`toDateKey`, the local-calendar-date formatter `YYYY-MM-DD` applied to the
parsed timestamp. -/
def sessionKey (parse : String → Option ℤ) (dateKey : ℤ → String)
    (s : Session) : String :=
  match parse s.created_at with
  | none => "unknown"
  | some t => dateKey t

/-- A display group of sessions sharing a creation-date key. The `label`
field of the source (today/yesterday/locale date/no-data text) is a pure
display string that affects neither membership nor order and is not
modelled. -/
structure SessionGroup where
  key : String
  sessions : List Session
deriving DecidableEq, Repr

/-- One step of the grouping loop: push the session onto the existing group
with this key (`existing.sessions.push(session)`) or append a fresh group —
a JavaScript `Map` preserves insertion order, so `groups.set(key, ...)` on
a fresh key appends. -/
def insertIntoGroups (groups : List SessionGroup) (key : String) (s : Session) :
    List SessionGroup :=
  match groups with
  | [] => [⟨key, [s]⟩]
  | g :: rest =>
    if g.key = key then ⟨g.key, g.sessions ++ [s]⟩ :: rest
    else g :: insertIntoGroups rest key s

/-- Embedding of `buildSessionGroups` from the session-list screen:
stable-sort the sessions by the descending-creation comparator, then fold
them in sorted order into insertion-ordered groups keyed by `sessionKey`,
returning `Array.from(groups.values())`. -/
def buildSessionGroups (parse : String → Option ℤ) (dateKey : ℤ → String)
    (sessions : List Session) : List SessionGroup :=
  (sessions.mergeSort (sessionBefore parse)).foldl
    (fun groups s => insertIntoGroups groups (sessionKey parse dateKey s) s) []

/-- Concatenation of the groups' member lists in group order. -/
def joinGroups (groups : List SessionGroup) : List Session :=
  (groups.map (fun g => g.sessions)).flatten

/-- `sessionBefore` is transitive. -/
theorem sessionBefore_trans (parse : String → Option ℤ) (a b c : Session)
    (hab : sessionBefore parse a b = true) (hbc : sessionBefore parse b c = true) :
    sessionBefore parse a c = true := by
  rw [sessionBefore] at *
  cases ha : parse a.created_at with
  | none =>
    cases hb : parse b.created_at with
    | none =>
      cases hc : parse c.created_at with
      | none => rfl
      | some tc =>
        rw [hb, hc] at hbc
        exact absurd hbc (by simp)
    | some tb =>
      rw [ha, hb] at hab
      exact absurd hab (by simp)
  | some ta =>
    cases hc : parse c.created_at with
    | none => rfl
    | some tc =>
      cases hb : parse b.created_at with
      | none =>
        rw [hb, hc] at hbc
        exact absurd hbc (by simp)
      | some tb =>
        rw [ha, hb] at hab
        rw [hb, hc] at hbc
        simp only [decide_eq_true_eq] at hab hbc ⊢
        omega

/-- `sessionBefore` is total. -/
theorem sessionBefore_total (parse : String → Option ℤ) (a b : Session) :
    (sessionBefore parse a b || sessionBefore parse b a) = true := by
  rw [sessionBefore, sessionBefore]
  cases ha : parse a.created_at with
  | none =>
    cases hb : parse b.created_at with
    | none => rfl
    | some tb => simp
  | some ta =>
    cases hb : parse b.created_at with
    | none => simp
    | some tb =>
      simp only [Bool.or_eq_true, decide_eq_true_eq]
      omega

/-- `joinGroups` distributes over group-list concatenation. -/
theorem joinGroups_append (G1 G2 : List SessionGroup) :
    joinGroups (G1 ++ G2) = joinGroups G1 ++ joinGroups G2 := by
  rw [joinGroups, joinGroups, joinGroups, List.map_append, List.flatten_append]

/-- Inserting under a key carried by no existing group appends a fresh
singleton group. -/
theorem insertIntoGroups_fresh (G : List SessionGroup) (k : String) (s : Session)
    (h : ∀ g ∈ G, g.key ≠ k) :
    insertIntoGroups G k s = G ++ [⟨k, [s]⟩] := by
  induction G with
  | nil => rfl
  | cons g rest ih =>
    rw [insertIntoGroups, if_neg (h g (List.mem_cons_self g rest)), List.cons_append]
    rw [ih (fun g' hg' => h g' (List.mem_cons_of_mem g hg'))]

/-- Inserting under the key of the last group — no earlier group carrying
it — pushes the session onto that last group. -/
theorem insertIntoGroups_last (G' : List SessionGroup) (glast : SessionGroup)
    (s : Session) (h : ∀ g ∈ G', g.key ≠ glast.key) :
    insertIntoGroups (G' ++ [glast]) glast.key s =
      G' ++ [⟨glast.key, glast.sessions ++ [s]⟩] := by
  induction G' with
  | nil =>
    rw [List.nil_append, insertIntoGroups, if_pos rfl, List.nil_append]
  | cons g rest ih =>
    rw [List.cons_append, insertIntoGroups,
      if_neg (h g (List.mem_cons_self g rest)), List.cons_append]
    rw [ih (fun g' hg' => h g' (List.mem_cons_of_mem g hg'))]

/-- Well-formedness of the accumulated group list: groups are nonempty,
members carry their group's key, and keys are pairwise distinct. -/
def groupsWellFormed (parse : String → Option ℤ) (dateKey : ℤ → String)
    (G : List SessionGroup) : Prop :=
  (∀ g ∈ G, g.sessions ≠ [] ∧
    ∀ s ∈ g.sessions, sessionKey parse dateKey s = g.key) ∧
  (G.map (fun g => g.key)).Nodup

/-- A session's key is `"unknown"` exactly when its creation date does not
parse (given that the date formatter never produces `"unknown"`). -/
theorem sessionKey_eq_unknown_iff (parse : String → Option ℤ)
    (dateKey : ℤ → String) (hnu : ∀ t : ℤ, dateKey t ≠ "unknown") (s : Session) :
    sessionKey parse dateKey s = "unknown" ↔ parse s.created_at = none := by
  rw [sessionKey]
  cases h : parse s.created_at with
  | none => simp
  | some t =>
    simp only []
    exact ⟨fun he => absurd he (hnu t), fun he => absurd he (by simp)⟩

/-- An unparseable session never precedes a parseable one in the sort
order. -/
theorem sessionBefore_none_some (parse : String → Option ℤ) (a b : Session)
    (ha : parse a.created_at = none) (hb : parse b.created_at ≠ none) :
    sessionBefore parse a b = false := by
  rw [sessionBefore, ha]
  cases h : parse b.created_at with
  | none => exact absurd h hb
  | some tb => rfl

/-- Key-sandwich property: if `x` precedes `y` precedes `s` in the sort
order and `x` and `s` share a grouping key, then `y` shares it too —
because the calendar-date key is convex in the parsed timestamp. -/
theorem key_sandwich (parse : String → Option ℤ) (dateKey : ℤ → String)
    (hconv : ∀ t1 t2 t3 : ℤ, t3 ≤ t2 → t2 ≤ t1 → dateKey t1 = dateKey t3 →
      dateKey t2 = dateKey t1)
    (hnu : ∀ t : ℤ, dateKey t ≠ "unknown") (x y s : Session)
    (hxy : sessionBefore parse x y = true) (hys : sessionBefore parse y s = true)
    (hk : sessionKey parse dateKey x = sessionKey parse dateKey s) :
    sessionKey parse dateKey y = sessionKey parse dateKey x := by
  cases hx : parse x.created_at with
  | none =>
    cases hy : parse y.created_at with
    | none =>
      rw [sessionKey, sessionKey, hx, hy]
    | some ty =>
      rw [sessionBefore, hx, hy] at hxy
      exact absurd hxy (by simp)
  | some tx =>
    have hxk : sessionKey parse dateKey x = dateKey tx := by rw [sessionKey, hx]
    have hsk : sessionKey parse dateKey s = dateKey tx := by rw [← hk, hxk]
    cases hs : parse s.created_at with
    | none =>
      have : sessionKey parse dateKey s = "unknown" := by rw [sessionKey, hs]
      rw [this] at hsk
      exact absurd hsk.symm (hnu tx)
    | some ts =>
      have hts : dateKey ts = dateKey tx := by
        rw [sessionKey, hs] at hsk
        exact hsk
      cases hy : parse y.created_at with
      | none =>
        rw [sessionBefore_none_some parse y s hy (by rw [hs]; simp)] at hys
        exact absurd hys (by simp)
      | some ty =>
        rw [sessionBefore, hx, hy] at hxy
        rw [sessionBefore, hy, hs] at hys
        simp only [decide_eq_true_eq] at hxy hys
        have hks : dateKey tx = dateKey ts := hts.symm
        have hmid := hconv tx ty ts hys hxy hks
        have hyk : sessionKey parse dateKey y = dateKey ty := by rw [sessionKey, hy]
        rw [hyk, hmid, hxk]

/-- Processing sessions in sorted order keeps the groups' join equal to the
processed prefix: since equal keys are contiguous in the sorted order (key
convexity), each session's key either matches the last group's key or is
fresh, so the grouping fold only ever appends at the end. -/
theorem foldl_insert_join (parse : String → Option ℤ) (dateKey : ℤ → String)
    (hconv : ∀ t1 t2 t3 : ℤ, t3 ≤ t2 → t2 ≤ t1 → dateKey t1 = dateKey t3 →
      dateKey t2 = dateKey t1)
    (hnu : ∀ t : ℤ, dateKey t ≠ "unknown") :
    ∀ (rest : List Session) (G : List SessionGroup),
      groupsWellFormed parse dateKey G →
      (joinGroups G ++ rest).Pairwise (fun a b => sessionBefore parse a b = true) →
      joinGroups (rest.foldl
          (fun groups s => insertIntoGroups groups (sessionKey parse dateKey s) s) G) =
        joinGroups G ++ rest ∧
      groupsWellFormed parse dateKey (rest.foldl
          (fun groups s => insertIntoGroups groups (sessionKey parse dateKey s) s) G) := by
  intro rest
  induction rest with
  | nil =>
    intro G hwf hpair
    exact ⟨by simp, hwf⟩
  | cons s rest' ih =>
    intro G hwf hpair
    rw [List.foldl_cons]
    have hstep : joinGroups (insertIntoGroups G (sessionKey parse dateKey s) s) =
        joinGroups G ++ [s] ∧
        groupsWellFormed parse dateKey
          (insertIntoGroups G (sessionKey parse dateKey s) s) := by
      by_cases hfresh : ∀ g ∈ G, g.key ≠ sessionKey parse dateKey s
      · rw [insertIntoGroups_fresh G _ s hfresh]
        refine ⟨?_, ?_, ?_⟩
        · rw [joinGroups_append]
          simp [joinGroups]
        · intro g hg
          rcases List.mem_append.mp hg with hg | hg
          · exact hwf.1 g hg
          · rw [List.mem_singleton] at hg
            subst hg
            refine ⟨by simp, ?_⟩
            intro s' hs'
            rw [List.mem_singleton] at hs'
            subst hs'
            rfl
        · rw [List.map_append, List.nodup_append]
          refine ⟨hwf.2, by simp, ?_⟩
          intro a ha hb
          simp only [List.map_cons, List.map_nil, List.mem_singleton] at hb
          rcases List.mem_map.mp ha with ⟨g, hg, hgk⟩
          exact hfresh g hg (by rw [hgk, hb])
      · push_neg at hfresh
        rcases hfresh with ⟨g0, hg0, hg0k⟩
        rcases List.eq_nil_or_concat G with hGnil | ⟨G'', glast, hGeq⟩
        · rw [hGnil] at hg0
          cases hg0
        · rw [List.concat_eq_append] at hGeq
          subst hGeq
          have hnod := hwf.2
          rw [List.map_append, List.nodup_append] at hnod
          by_cases hlast : glast.key = sessionKey parse dateKey s
          · have hfresh'' : ∀ g ∈ G'', g.key ≠ glast.key := by
              intro g hg he
              exact hnod.2.2 (List.mem_map_of_mem _ hg) (by rw [he]; simp)
            rw [← hlast, insertIntoGroups_last G'' glast s hfresh'']
            refine ⟨?_, ?_, ?_⟩
            · rw [joinGroups_append, joinGroups_append]
              simp [joinGroups, List.append_assoc]
            · intro g hg
              rcases List.mem_append.mp hg with hg | hg
              · exact hwf.1 g (List.mem_append.mpr (Or.inl hg))
              · rw [List.mem_singleton] at hg
                subst hg
                refine ⟨by simp, ?_⟩
                intro s' hs'
                rcases List.mem_append.mp hs' with hs' | hs'
                · exact (hwf.1 glast (List.mem_append.mpr (Or.inr (by simp)))).2 s' hs'
                · rw [List.mem_singleton] at hs'
                  subst hs'
                  exact hlast.symm
            · have hkeys := hwf.2
              rw [List.map_append] at hkeys ⊢
              simpa using hkeys
          · exfalso
            have hg0'' : g0 ∈ G'' := by
              rcases List.mem_append.mp hg0 with h | h
              · exact h
              · rw [List.mem_singleton] at h
                subst h
                exact absurd hg0k hlast
            rcases List.exists_mem_of_ne_nil _ (hwf.1 g0 hg0).1 with ⟨x, hx⟩
            rcases List.exists_mem_of_ne_nil _
              (hwf.1 glast (List.mem_append.mpr (Or.inr (by simp)))).1 with ⟨y, hy⟩
            have hxk : sessionKey parse dateKey x = sessionKey parse dateKey s := by
              rw [(hwf.1 g0 hg0).2 x hx, hg0k]
            have hyk : sessionKey parse dateKey y = glast.key :=
              (hwf.1 glast (List.mem_append.mpr (Or.inr (by simp)))).2 y hy
            rw [joinGroups_append] at hpair
            have hpa := List.pairwise_append.mp hpair
            have hinner := List.pairwise_append.mp hpa.1
            have hxj : x ∈ joinGroups G'' := by
              rw [joinGroups]
              exact List.mem_flatten.mpr
                ⟨g0.sessions, List.mem_map_of_mem _ hg0'', hx⟩
            have hyj : y ∈ joinGroups [glast] := by
              rw [joinGroups]
              simpa using hy
            have hrxy : sessionBefore parse x y = true := hinner.2.2 x hxj y hyj
            have hrys : sessionBefore parse y s = true :=
              hpa.2.2 y (List.mem_append.mpr (Or.inr hyj)) s (List.mem_cons_self s rest')
            have := key_sandwich parse dateKey hconv hnu x y s hrxy hrys hxk
            rw [hyk, hxk] at this
            exact hlast this
    have hpair₂ : (joinGroups (insertIntoGroups G (sessionKey parse dateKey s) s) ++
        rest').Pairwise (fun a b => sessionBefore parse a b = true) := by
      rw [hstep.1, List.append_assoc, List.singleton_append]
      exact hpair
    have hrec := ih (insertIntoGroups G (sessionKey parse dateKey s) s) hstep.2 hpair₂
    refine ⟨?_, hrec.2⟩
    rw [hrec.1, hstep.1, List.append_assoc, List.singleton_append]

/-- C9: `buildSessionGroups` is a partition of its input — the groups'
members, concatenated in group order, are a permutation of the input
sessions; every group is nonempty and its members carry exactly its
calendar-date key (`"unknown"` for unparseable `created_at`); group keys
are pairwise distinct (so each session lands in exactly one group); the
concatenation is sorted by the descending-creation preorder (descending
`created_at` within and across groups, unparseable entries last); and any
`"unknown"`-keyed group comes after every parseable-date group. The date
key is assumed convex in the timestamp (a calendar date is an interval of
timestamps) and never the literal `"unknown"` — both true of `toDateKey`'s
`YYYY-MM-DD` output. -/
theorem C9_buildSessionGroups_partition (parse : String → Option ℤ)
    (dateKey : ℤ → String) (sessions : List Session)
    (hconv : ∀ t1 t2 t3 : ℤ, t3 ≤ t2 → t2 ≤ t1 → dateKey t1 = dateKey t3 →
      dateKey t2 = dateKey t1)
    (hnu : ∀ t : ℤ, dateKey t ≠ "unknown") :
    (joinGroups (buildSessionGroups parse dateKey sessions)).Perm sessions ∧
    (∀ g ∈ buildSessionGroups parse dateKey sessions, g.sessions ≠ [] ∧
      ∀ s ∈ g.sessions, sessionKey parse dateKey s = g.key) ∧
    ((buildSessionGroups parse dateKey sessions).map (fun g => g.key)).Nodup ∧
    (joinGroups (buildSessionGroups parse dateKey sessions)).Pairwise
      (fun a b => sessionBefore parse a b = true) ∧
    (∀ (i j : ℕ) (hi : i < (buildSessionGroups parse dateKey sessions).length)
      (hj : j < (buildSessionGroups parse dateKey sessions).length),
      ((buildSessionGroups parse dateKey sessions)[i]).key = "unknown" →
      ((buildSessionGroups parse dateKey sessions)[j]).key ≠ "unknown" → j < i) := by
  have hsorted : (sessions.mergeSort (sessionBefore parse)).Pairwise
      (fun a b => sessionBefore parse a b = true) := by
    have h := List.sorted_mergeSort
      (fun a b c hab hbc => sessionBefore_trans parse a b c hab hbc)
      (fun a b => sessionBefore_total parse a b) sessions
    simpa using h
  have hwfnil : groupsWellFormed parse dateKey [] :=
    ⟨(by intro g hg; cases hg), (by simp)⟩
  have hjoin_nil : joinGroups ([] : List SessionGroup) = [] := by
    simp [joinGroups]
  have hmain := foldl_insert_join parse dateKey hconv hnu
    (sessions.mergeSort (sessionBefore parse)) [] hwfnil
    (by rw [hjoin_nil, List.nil_append]; exact hsorted)
  have hje : joinGroups (buildSessionGroups parse dateKey sessions) =
      sessions.mergeSort (sessionBefore parse) := by
    rw [buildSessionGroups, hmain.1, hjoin_nil, List.nil_append]
  have hwf : groupsWellFormed parse dateKey
      (buildSessionGroups parse dateKey sessions) := by
    rw [buildSessionGroups]
    exact hmain.2
  have hpairjoin : (joinGroups (buildSessionGroups parse dateKey sessions)).Pairwise
      (fun a b => sessionBefore parse a b = true) := by
    rw [hje]
    exact hsorted
  refine ⟨?_, hwf.1, hwf.2, hpairjoin, ?_⟩
  · rw [hje]
    exact List.mergeSort_perm sessions (sessionBefore parse)
  · intro i j hi hj hki hkj
    by_contra hij
    push_neg at hij
    have hne : i ≠ j := by
      intro he
      subst he
      exact hkj hki
    have hlt : i < j := lt_of_le_of_ne hij hne
    have hflat := hpairjoin
    rw [joinGroups] at hflat
    have hcross := List.pairwise_map.mp (List.pairwise_flatten.mp hflat).2
    have hrel := List.pairwise_iff_getElem.mp hcross i j hi hj hlt
    have hgi := hwf.1 ((buildSessionGroups parse dateKey sessions)[i])
      (List.getElem_mem hi)
    have hgj := hwf.1 ((buildSessionGroups parse dateKey sessions)[j])
      (List.getElem_mem hj)
    rcases List.exists_mem_of_ne_nil _ hgi.1 with ⟨x, hx⟩
    rcases List.exists_mem_of_ne_nil _ hgj.1 with ⟨y, hy⟩
    have hxkey : sessionKey parse dateKey x = "unknown" := by
      rw [hgi.2 x hx, hki]
    have hykey : sessionKey parse dateKey y ≠ "unknown" := by
      rw [hgj.2 y hy]
      exact hkj
    have hxnone : parse x.created_at = none :=
      (sessionKey_eq_unknown_iff parse dateKey hnu x).mp hxkey
    have hysome : parse y.created_at ≠ none := by
      intro he
      exact hykey ((sessionKey_eq_unknown_iff parse dateKey hnu y).mpr he)
    have hrxy : sessionBefore parse x y = true := hrel x hx y hy
    rw [sessionBefore_none_some parse x y hxnone hysome] at hrxy
    exact absurd hrxy (by simp)

/-- Date parser used by the C9 witness. -/
def witnessParse : String → Option ℤ := String.toInt?

/-- Date-key formatter used by the C9 witness: a constant calendar-day
label, trivially convex and never `"unknown"`. -/
def witnessDateKey : ℤ → String := fun _ => "2026-01-01"

/-- Sessions used by the C9 witness: one parseable and one unparseable
creation date. -/
def witnessSessions : List Session :=
  [⟨"s1", "Untitled session", "0:00", "1:59am", "100", false⟩,
   ⟨"s2", "Untitled session", "0:00", "1:49am", "not-a-date", false⟩]

/-- C9 witness: the partition theorem applied at a concrete parser, date
formatter and session list, with both hypotheses discharged. -/
theorem C9_witness :
    (joinGroups (buildSessionGroups witnessParse witnessDateKey
      witnessSessions)).Perm witnessSessions ∧
    (∀ g ∈ buildSessionGroups witnessParse witnessDateKey witnessSessions,
      g.sessions ≠ [] ∧
      ∀ s ∈ g.sessions, sessionKey witnessParse witnessDateKey s = g.key) ∧
    ((buildSessionGroups witnessParse witnessDateKey witnessSessions).map
      (fun g => g.key)).Nodup ∧
    (joinGroups (buildSessionGroups witnessParse witnessDateKey
      witnessSessions)).Pairwise
      (fun a b => sessionBefore witnessParse a b = true) ∧
    (∀ (i j : ℕ)
      (hi : i < (buildSessionGroups witnessParse witnessDateKey
        witnessSessions).length)
      (hj : j < (buildSessionGroups witnessParse witnessDateKey
        witnessSessions).length),
      ((buildSessionGroups witnessParse witnessDateKey witnessSessions)[i]).key =
        "unknown" →
      ((buildSessionGroups witnessParse witnessDateKey witnessSessions)[j]).key ≠
        "unknown" → j < i) :=
  C9_buildSessionGroups_partition witnessParse witnessDateKey witnessSessions
    (fun _ _ _ _ _ _ => rfl)
    (fun t h => by simp [witnessDateKey] at h)
